import Mathlib

/-!
Shallow embedding of `src/caching_loader/caching_loader.py` (class
`CachingLoader`).  Promises from `third_party.promise` are external
collaborators; they are modelled by numeric identities plus an explicit
settlement state, which is exactly the capability surface the loader
uses: pending construction, external resolve and reject, continuation
attachment, and identity comparison.  Python object identity of a
promise created by the loader is modelled by an id allocated from the
state counter `nextId`.  An explicit event trace records, in program
order, the observable actions that the ordering guarantees of the spec
talk about.
-/

/-- Result of calling the external load function on a key, after the
`promisify` adaptation: a promise that is already resolved, one that is
already rejected (both fire the attached continuations synchronously,
per the comment in `CachingLoader.load`), or a still-pending future,
identified by a token that a later settlement step refers to. -/
inductive AsyncResult (V E : Type) where
  | syncResolved (v : V)
  | syncRejected (e : E)
  | pendingFuture (tok : Nat)
deriving DecidableEq

/-- Predicate used to say the load function does not hand back an
already-rejected promise (which would settle the failure synchronously
inside the `load` call itself). -/
def AsyncResult.isSyncRejected {V E : Type} : AsyncResult V E → Bool
  | AsyncResult.syncRejected _ => true
  | _ => false

/-- Settlement state of a promise created by the loader. -/
inductive PromiseState (V E : Type) where
  | pending
  | resolved (v : V)
  | rejected (e : E)
deriving DecidableEq

/-- Dynamic kind of the backing mapping object: the built-in dict that
the constructor default and `clear_all` create, or a caller-supplied
custom mapping class (the `cache_map` argument), distinguished by a
tag. -/
inductive MapKind where
  | defaultDict
  | customMap (tag : Nat)
deriving DecidableEq

/-- Observable events, recorded in program order, used to state the
ordering guarantees (publish-before-invoke, evict-before-reject). -/
inductive Event (K CK V E : Type) where
  | published (ck : CK) (pid : Nat)
  | invokedLoadFn (k : K)
  | evicted (ck : CK)
  | rejectDelivered (pid : Nat) (e : E)
  | resolveDelivered (pid : Nat) (v : V)
  | dispatchKeyError (ck : CK)
deriving DecidableEq

/-- Lookup in the cache mapping (`cache_key in self._promise_cache` and
`self._promise_cache[cache_key]`). -/
def lookupCache {CK : Type} [DecidableEq CK] : List (CK × Nat) → CK → Option Nat
  | [], _ => none
  | p :: rest, ck => if p.1 = ck then some p.2 else lookupCache rest ck

/-- Store under a key (`self._promise_cache[cache_key] = promise`):
replaces the entry when the key is present, appends otherwise, as a
dict assignment does. -/
def insertCache {CK : Type} [DecidableEq CK] : List (CK × Nat) → CK → Nat → List (CK × Nat)
  | [], ck, pid => [(ck, pid)]
  | p :: rest, ck, pid => if p.1 = ck then (ck, pid) :: rest else p :: insertCache rest ck pid

/-- Delete a key (`del self._promise_cache[cache_key]`); dict keys are
unique, so removing every match of the key is exactly removal of the one
entry. -/
def removeCache {CK : Type} [DecidableEq CK] : List (CK × Nat) → CK → List (CK × Nat)
  | [], _ => []
  | p :: rest, ck => if p.1 = ck then removeCache rest ck else p :: removeCache rest ck

/-- Settlement state of the promise with a given identity. -/
def lookupPromise {V E : Type} : List (Nat × PromiseState V E) → Nat → Option (PromiseState V E)
  | [], _ => none
  | p :: rest, pid => if p.1 = pid then some p.2 else lookupPromise rest pid

/-- External resolve or reject of the promise with a given identity. -/
def setPromise {V E : Type} :
    List (Nat × PromiseState V E) → Nat → PromiseState V E → List (Nat × PromiseState V E)
  | [], _, _ => []
  | p :: rest, pid, st => if p.1 = pid then (pid, st) :: rest else p :: setPromise rest pid st

/-- The continuation data attached to a still-pending future: the load
key captured by `handle_error` and the identity of the published promise
captured by `resolve` and `reject`. -/
def lookupInflight {K : Type} : List (Nat × K × Nat) → Nat → Option (K × Nat)
  | [], _ => none
  | f :: rest, tok => if f.1 = tok then some f.2 else lookupInflight rest tok

/-- Drop the continuation record of a future once it has settled. -/
def removeInflight {K : Type} : List (Nat × K × Nat) → Nat → List (Nat × K × Nat)
  | [], _ => []
  | f :: rest, tok => if f.1 = tok then rest else f :: removeInflight rest tok

/-- State of one `CachingLoader` instance together with the promises it
has created, the still-pending futures handed back by the load function,
the log of load-function invocations, and the event trace. -/
structure LoaderState (K CK V E : Type) where
  loadFn : K → AsyncResult V E
  cacheKeyFn : K → CK
  instanceId : Nat
  cacheKind : MapKind
  cache : List (CK × Nat)
  promises : List (Nat × PromiseState V E)
  nextId : Nat
  inflight : List (Nat × K × Nat)
  loadCalls : List K
  trace : List (Event K CK V E)

/-- Construction (`CachingLoader.__init__`) with an explicit backing
mapping of the given kind and contents; `load_fn` callability is checked
by an assert, which the typed embedding makes vacuous. -/
def mkLoader {K CK V E : Type} (loadFn : K → AsyncResult V E) (cacheKeyFn : K → CK)
    (iid : Nat) (kind : MapKind) (cache : List (CK × Nat)) : LoaderState K CK V E :=
  { loadFn := loadFn, cacheKeyFn := cacheKeyFn, instanceId := iid,
    cacheKind := kind, cache := cache, promises := [], nextId := 0,
    inflight := [], loadCalls := [], trace := [] }

/-- Construction with the defaults: `cache_map=None` gives a fresh empty
built-in dict. -/
def initLoader {K CK V E : Type} (loadFn : K → AsyncResult V E) (cacheKeyFn : K → CK)
    (iid : Nat) : LoaderState K CK V E :=
  mkLoader loadFn cacheKeyFn iid MapKind.defaultDict []

variable {K CK V E : Type} [DecidableEq CK]

/-- Publication phase of a cache miss in `CachingLoader.load`: create a
fresh pending promise (`promise = Promise()`) and store it in the cache
(`self._promise_cache[cache_key] = promise`) before anything else runs. -/
def publishPhase (s : LoaderState K CK V E) (k : K) : LoaderState K CK V E × Nat :=
  let ck := s.cacheKeyFn k
  let pid := s.nextId
  ({ s with promises := s.promises ++ [(pid, PromiseState.pending)],
            nextId := pid + 1,
            cache := insertCache s.cache ck pid,
            trace := s.trace ++ [Event.published ck pid] }, pid)

/-- Model of `CachingLoader.clear`: `del self._promise_cache[cache_key]`
raises `KeyError` when the key is absent; `Except.error` carries the
loader state at the moment of the raise (unchanged).  On success the
mutated loader itself is returned (`return self`). -/
def clear (s : LoaderState K CK V E) (k : K) :
    Except (LoaderState K CK V E) (LoaderState K CK V E) :=
  let ck := s.cacheKeyFn k
  match lookupCache s.cache ck with
  | none => Except.error s
  | some _ => Except.ok { s with cache := removeCache s.cache ck,
                                 trace := s.trace ++ [Event.evicted ck] }

/-- Model of `CachingLoader._failed_dispatch`: `self.clear(key)` first,
then `reject(error)` on the published promise.  When `clear` raises
(entry absent) the `KeyError` propagates and `reject` is never called. -/
def failedDispatch (s : LoaderState K CK V E) (k : K) (pid : Nat) (e : E) :
    Except (LoaderState K CK V E) (LoaderState K CK V E) :=
  match clear s k with
  | Except.error s' => Except.error s'
  | Except.ok s' =>
      Except.ok { s' with promises := setPromise s'.promises pid (PromiseState.rejected e),
                          trace := s'.trace ++ [Event.rejectDelivered pid e] }

/-- Model of `handle_load_call` inside `CachingLoader.load`: invoke the
load function on the key, promisify its result, and attach `resolve` as
the success continuation and `handle_error` (which runs
`_failed_dispatch`) as the failure continuation.  An already-settled
result fires the continuation synchronously, inside this call; a
still-pending future is recorded in `inflight` so a later settlement
step fires the continuation.  A `KeyError` escaping the failure
continuation is swallowed by the promise library into an unobserved
internal promise, leaving the published promise pending. -/
def handleLoadCall (s : LoaderState K CK V E) (k : K) (pid : Nat) : LoaderState K CK V E :=
  let s1 := { s with loadCalls := s.loadCalls ++ [k],
                     trace := s.trace ++ [Event.invokedLoadFn k] }
  match s.loadFn k with
  | AsyncResult.syncResolved v =>
      { s1 with promises := setPromise s1.promises pid (PromiseState.resolved v),
                trace := s1.trace ++ [Event.resolveDelivered pid v] }
  | AsyncResult.syncRejected e =>
      match failedDispatch s1 k pid e with
      | Except.ok s2 => s2
      | Except.error s2 => { s2 with trace := s2.trace ++ [Event.dispatchKeyError (s.cacheKeyFn k)] }
  | AsyncResult.pendingFuture tok =>
      { s1 with inflight := s1.inflight ++ [(tok, k, pid)] }

/-- Model of `CachingLoader.load`: a cache hit returns the stored
promise with no other effect; a cache miss publishes a fresh pending
promise first and only then runs `handle_load_call`.  The returned `Nat`
is the identity of the returned promise object. -/
def load (s : LoaderState K CK V E) (k : K) : LoaderState K CK V E × Nat :=
  match lookupCache s.cache (s.cacheKeyFn k) with
  | some pid => (s, pid)
  | none =>
      let pub := publishPhase s k
      (handleLoadCall pub.1 k pub.2, pub.2)

/-- Model of `CachingLoader.clear_all`: the assignment
`self._promise_cache = {}` installs a fresh empty built-in dict,
whatever kind the previous mapping object was, and returns self. -/
def clear_all (s : LoaderState K CK V E) : LoaderState K CK V E :=
  { s with cacheKind := MapKind.defaultDict, cache := [] }

/-- Object passed to `prime`: its Python identity and whether it has a
callable `then` attribute, which is what the assertion checks. -/
structure PrimeArg where
  pid : Nat
  hasThen : Bool
deriving DecidableEq

/-- Model of `CachingLoader.prime`: assert the argument is promise-like
(fail fast; `Except.error` carries the unchanged state), then store it
under the cache key only when that key is absent, and return self. -/
def prime (s : LoaderState K CK V E) (k : K) (p : PrimeArg) :
    Except (LoaderState K CK V E) (LoaderState K CK V E) :=
  if p.hasThen then
    let ck := s.cacheKeyFn k
    match lookupCache s.cache ck with
    | some _ => Except.ok s
    | none => Except.ok { s with cache := insertCache s.cache ck p.pid }
  else Except.error s

/-- Settlement of a still-pending future returned by the load function,
with success: the attached continuation resolves the published promise.
The cache is not touched on success. -/
def settleSuccess (s : LoaderState K CK V E) (tok : Nat) (v : V) : LoaderState K CK V E :=
  match lookupInflight s.inflight tok with
  | none => s
  | some kp =>
      { s with inflight := removeInflight s.inflight tok,
               promises := setPromise s.promises kp.2 (PromiseState.resolved v),
               trace := s.trace ++ [Event.resolveDelivered kp.2 v] }

/-- Settlement of a still-pending future with failure: the attached
continuation `handle_error` runs `_failed_dispatch` with the captured
key, the captured `reject` of the published promise, and the error.
When the dispatch raises `KeyError` (cache entry absent at settlement
time) the promise library swallows the exception into an unobserved
internal promise: the published promise is left pending and the loader
state is otherwise unchanged. -/
def settleFailure (s : LoaderState K CK V E) (tok : Nat) (e : E) : LoaderState K CK V E :=
  match lookupInflight s.inflight tok with
  | none => s
  | some kp =>
      let s1 := { s with inflight := removeInflight s.inflight tok }
      match failedDispatch s1 kp.1 kp.2 e with
      | Except.ok s2 => s2
      | Except.error s2 => { s2 with trace := s2.trace ++ [Event.dispatchKeyError (s.cacheKeyFn kp.1)] }

/-! ### Lemmas about the mapping and promise-store helpers -/

theorem lookupCache_insertCache_self (m : List (CK × Nat)) (ck : CK) (pid : Nat) :
    lookupCache (insertCache m ck pid) ck = some pid := by
  induction m with
  | nil => simp [insertCache, lookupCache]
  | cons p rest ih =>
      by_cases h : p.1 = ck
      · simp [insertCache, h, lookupCache]
      · simp [insertCache, h, lookupCache, ih]

theorem lookupCache_insertCache_other (m : List (CK × Nat)) (ck ck' : CK) (pid : Nat)
    (h : ck' ≠ ck) : lookupCache (insertCache m ck pid) ck' = lookupCache m ck' := by
  have h2 : ¬ (ck = ck') := fun hh => h hh.symm
  induction m with
  | nil => simp [insertCache, lookupCache, h, h2]
  | cons p rest ih =>
      by_cases hp : p.1 = ck
      · have hp'' : ¬ (p.1 = ck') := by rw [hp]; exact h2
        simp [insertCache, hp, lookupCache, h2, hp'']
      · by_cases hq : p.1 = ck'
        · simp [insertCache, hp, lookupCache, hq, h]
        · simp [insertCache, hp, lookupCache, hq, ih]

theorem lookupCache_removeCache_self (m : List (CK × Nat)) (ck : CK) :
    lookupCache (removeCache m ck) ck = none := by
  induction m with
  | nil => simp [removeCache, lookupCache]
  | cons p rest ih =>
      by_cases h : p.1 = ck
      · simp [removeCache, h, ih]
      · simp [removeCache, h, lookupCache, ih]

theorem lookupCache_removeCache_other (m : List (CK × Nat)) (ck ck' : CK)
    (h : ck' ≠ ck) : lookupCache (removeCache m ck) ck' = lookupCache m ck' := by
  have h2 : ¬ (ck = ck') := fun hh => h hh.symm
  induction m with
  | nil => simp [removeCache]
  | cons p rest ih =>
      by_cases hp : p.1 = ck
      · have hp' : ¬ (p.1 = ck') := by rw [hp]; exact h2
        simp [removeCache, hp, lookupCache, hp', h2, ih]
      · by_cases hq : p.1 = ck'
        · simp [removeCache, hp, lookupCache, hq, h]
        · simp [removeCache, hp, lookupCache, hq, ih]

theorem lookupPromise_append_of_none {ps qs : List (Nat × PromiseState V E)} {pid : Nat}
    (h : lookupPromise ps pid = none) :
    lookupPromise (ps ++ qs) pid = lookupPromise qs pid := by
  induction ps with
  | nil => simp
  | cons p rest ih =>
      by_cases hp : p.1 = pid
      · simp [lookupPromise, hp] at h
      · simp [lookupPromise, hp] at h ⊢
        exact ih h

theorem lookupPromise_singleton (pid : Nat) (st : PromiseState V E) :
    lookupPromise [(pid, st)] pid = some st := by
  simp [lookupPromise]

theorem setPromise_append_of_none {ps : List (Nat × PromiseState V E)} {pid : Nat}
    (st0 st : PromiseState V E) (h : lookupPromise ps pid = none) :
    setPromise (ps ++ [(pid, st0)]) pid st = ps ++ [(pid, st)] := by
  induction ps with
  | nil => simp [setPromise]
  | cons p rest ih =>
      by_cases hp : p.1 = pid
      · simp [lookupPromise, hp] at h
      · simp [lookupPromise, hp] at h
        simp [setPromise, hp, ih h]

theorem lookupPromise_setPromise_self {ps : List (Nat × PromiseState V E)} {pid : Nat}
    {q : PromiseState V E} (st : PromiseState V E) (h : lookupPromise ps pid = some q) :
    lookupPromise (setPromise ps pid st) pid = some st := by
  induction ps with
  | nil => simp [lookupPromise] at h
  | cons p rest ih =>
      by_cases hp : p.1 = pid
      · simp [setPromise, hp, lookupPromise]
      · simp [lookupPromise, hp] at h
        simp [setPromise, hp, lookupPromise, ih h]

theorem lookupPromise_setPromise_other {ps : List (Nat × PromiseState V E)} {pid pid' : Nat}
    (st : PromiseState V E) (h : pid' ≠ pid) :
    lookupPromise (setPromise ps pid st) pid' = lookupPromise ps pid' := by
  induction ps with
  | nil => simp [setPromise]
  | cons p rest ih =>
      by_cases hp : p.1 = pid
      · have hp' : ¬ (p.1 = pid') := by rw [hp]; exact fun hh => h hh.symm
        have hs : ¬ (pid = pid') := fun hh => h hh.symm
        simp [setPromise, hp, lookupPromise, hp', hs]
      · simp [setPromise, hp, lookupPromise, ih]

theorem lookupInflight_append_of_none {fs : List (Nat × K × Nat)} {tok : Nat}
    (k : K) (pid : Nat) (h : lookupInflight fs tok = none) :
    lookupInflight (fs ++ [(tok, k, pid)]) tok = some (k, pid) := by
  induction fs with
  | nil => simp [lookupInflight]
  | cons f rest ih =>
      by_cases hf : f.1 = tok
      · simp [lookupInflight, hf] at h
      · simp [lookupInflight, hf] at h ⊢
        exact ih h

/-! ### Characterization of `load` on each shape of the load-function result -/

theorem load_hit (s : LoaderState K CK V E) (k : K) (pid : Nat)
    (h : lookupCache s.cache (s.cacheKeyFn k) = some pid) : load s k = (s, pid) := by
  simp [load, h]

theorem load_miss_syncResolved (s : LoaderState K CK V E) (k : K) (v : V)
    (hmiss : lookupCache s.cache (s.cacheKeyFn k) = none)
    (hfn : s.loadFn k = AsyncResult.syncResolved v) :
    load s k =
      ({ s with promises := setPromise (s.promises ++ [(s.nextId, PromiseState.pending)])
                  s.nextId (PromiseState.resolved v),
                nextId := s.nextId + 1,
                cache := insertCache s.cache (s.cacheKeyFn k) s.nextId,
                loadCalls := s.loadCalls ++ [k],
                trace := s.trace ++ [Event.published (s.cacheKeyFn k) s.nextId,
                  Event.invokedLoadFn k, Event.resolveDelivered s.nextId v] }, s.nextId) := by
  simp [load, hmiss, publishPhase, handleLoadCall, hfn, List.append_assoc]

theorem load_miss_syncRejected (s : LoaderState K CK V E) (k : K) (e : E)
    (hmiss : lookupCache s.cache (s.cacheKeyFn k) = none)
    (hfn : s.loadFn k = AsyncResult.syncRejected e) :
    load s k =
      ({ s with promises := setPromise (s.promises ++ [(s.nextId, PromiseState.pending)])
                  s.nextId (PromiseState.rejected e),
                nextId := s.nextId + 1,
                cache := removeCache (insertCache s.cache (s.cacheKeyFn k) s.nextId)
                  (s.cacheKeyFn k),
                loadCalls := s.loadCalls ++ [k],
                trace := s.trace ++ [Event.published (s.cacheKeyFn k) s.nextId,
                  Event.invokedLoadFn k, Event.evicted (s.cacheKeyFn k),
                  Event.rejectDelivered s.nextId e] }, s.nextId) := by
  simp [load, hmiss, publishPhase, handleLoadCall, hfn, failedDispatch, clear,
    lookupCache_insertCache_self, List.append_assoc]

theorem load_miss_pendingFuture (s : LoaderState K CK V E) (k : K) (tok : Nat)
    (hmiss : lookupCache s.cache (s.cacheKeyFn k) = none)
    (hfn : s.loadFn k = AsyncResult.pendingFuture tok) :
    load s k =
      ({ s with promises := s.promises ++ [(s.nextId, PromiseState.pending)],
                nextId := s.nextId + 1,
                cache := insertCache s.cache (s.cacheKeyFn k) s.nextId,
                inflight := s.inflight ++ [(tok, k, s.nextId)],
                loadCalls := s.loadCalls ++ [k],
                trace := s.trace ++ [Event.published (s.cacheKeyFn k) s.nextId,
                  Event.invokedLoadFn k] }, s.nextId) := by
  simp [load, hmiss, publishPhase, handleLoadCall, hfn, List.append_assoc]

/-- Facts common to a cache miss whatever the shape of the load-function
result: the returned promise is the freshly allocated one, the load
function is invoked exactly once, the id counter advances, the loader
configuration and instance are untouched, and cache keys other than the
derived one are untouched. -/
theorem load_miss_generic (s : LoaderState K CK V E) (k : K)
    (hmiss : lookupCache s.cache (s.cacheKeyFn k) = none) :
    (load s k).2 = s.nextId ∧
    (load s k).1.loadCalls = s.loadCalls ++ [k] ∧
    (load s k).1.nextId = s.nextId + 1 ∧
    (load s k).1.cacheKeyFn = s.cacheKeyFn ∧
    (load s k).1.loadFn = s.loadFn ∧
    (load s k).1.instanceId = s.instanceId ∧
    (∀ ck', ck' ≠ s.cacheKeyFn k → lookupCache (load s k).1.cache ck' = lookupCache s.cache ck') := by
  cases hfn : s.loadFn k with
  | syncResolved v =>
      rw [load_miss_syncResolved s k v hmiss hfn]
      refine ⟨rfl, rfl, rfl, rfl, rfl, rfl, ?_⟩
      intro ck' hck
      exact lookupCache_insertCache_other s.cache (s.cacheKeyFn k) ck' s.nextId hck
  | syncRejected e =>
      rw [load_miss_syncRejected s k e hmiss hfn]
      refine ⟨rfl, rfl, rfl, rfl, rfl, rfl, ?_⟩
      intro ck' hck
      rw [lookupCache_removeCache_other _ _ _ hck]
      exact lookupCache_insertCache_other s.cache (s.cacheKeyFn k) ck' s.nextId hck
  | pendingFuture tok =>
      rw [load_miss_pendingFuture s k tok hmiss hfn]
      refine ⟨rfl, rfl, rfl, rfl, rfl, rfl, ?_⟩
      intro ck' hck
      exact lookupCache_insertCache_other s.cache (s.cacheKeyFn k) ck' s.nextId hck

/-- Concrete loader over Nat keys whose load function always returns a
still-pending future whose token equals the key. -/
def natPendingLoader : LoaderState Nat Nat Nat Nat :=
  initLoader (fun k => AsyncResult.pendingFuture k) (fun x => x) 0

/-- Concrete loader over Nat keys whose load function returns an
already-resolved promise carrying the key. -/
def natResolvedLoader : LoaderState Nat Nat Nat Nat :=
  initLoader (fun k => AsyncResult.syncResolved k) (fun x => x) 0

/-- Concrete loader built with a caller-supplied custom mapping object
(the `cache_map` constructor argument). -/
def customMapLoader : LoaderState Nat Nat Nat Nat :=
  mkLoader (fun k => AsyncResult.syncResolved k) (fun x => x) 7 (MapKind.customMap 1) []

/-- C1: starting from a state where the derived cache key is absent and
with no intervening clear, clear_all, or failure settlement (in
particular the load function result is not an already-rejected promise,
whose failure would settle synchronously inside the first call), two
consecutive `load` calls for the key return the identical promise
object, that promise is the very object stored in the cache, and the
load function is invoked exactly once for the key. -/
theorem C1_consecutive_loads_identical (s : LoaderState K CK V E) (k : K)
    (hmiss : lookupCache s.cache (s.cacheKeyFn k) = none)
    (hnr : (s.loadFn k).isSyncRejected = false) :
    load (load s k).1 k = ((load s k).1, (load s k).2) ∧
    lookupCache (load s k).1.cache (s.cacheKeyFn k) = some (load s k).2 ∧
    (load s k).1.loadCalls = s.loadCalls ++ [k] := by
  cases hfn : s.loadFn k with
  | syncResolved v =>
      rw [load_miss_syncResolved s k v hmiss hfn]
      exact ⟨load_hit _ k _ (lookupCache_insertCache_self s.cache (s.cacheKeyFn k) s.nextId),
        lookupCache_insertCache_self s.cache (s.cacheKeyFn k) s.nextId, rfl⟩
  | syncRejected e =>
      rw [hfn] at hnr
      simp [AsyncResult.isSyncRejected] at hnr
  | pendingFuture tok =>
      rw [load_miss_pendingFuture s k tok hmiss hfn]
      exact ⟨load_hit _ k _ (lookupCache_insertCache_self s.cache (s.cacheKeyFn k) s.nextId),
        lookupCache_insertCache_self s.cache (s.cacheKeyFn k) s.nextId, rfl⟩

/-- Witness for C1 at a concrete loader and key. -/
theorem C1_witness :
    (lookupCache natPendingLoader.cache (natPendingLoader.cacheKeyFn 0) = none ∧
      (natPendingLoader.loadFn 0).isSyncRejected = false) ∧
    (load (load natPendingLoader 0).1 0 =
        ((load natPendingLoader 0).1, (load natPendingLoader 0).2) ∧
      lookupCache (load natPendingLoader 0).1.cache (natPendingLoader.cacheKeyFn 0) =
        some (load natPendingLoader 0).2 ∧
      (load natPendingLoader 0).1.loadCalls = natPendingLoader.loadCalls ++ [0]) :=
  ⟨⟨rfl, rfl⟩, C1_consecutive_loads_identical natPendingLoader 0 rfl rfl⟩

/-- C2: on a cache miss, `load` publishes the new pending promise into
the cache strictly before invoking the load function: the cache miss
appends the publish event immediately followed by the invocation event
to the trace, and at the exact intermediate state in which the load
function (or any continuation it settles synchronously) runs, a
re-entrant `load` for the same cache key finds the entry present and
returns that same promise without invoking the load function again. -/
theorem C2_publish_before_invoke (s : LoaderState K CK V E) (k : K)
    (hmiss : lookupCache s.cache (s.cacheKeyFn k) = none) :
    (∃ rest, (load s k).1.trace =
        s.trace ++ [Event.published (s.cacheKeyFn k) (load s k).2, Event.invokedLoadFn k]
          ++ rest) ∧
    (load s k).2 = (publishPhase s k).2 ∧
    lookupCache (publishPhase s k).1.cache (s.cacheKeyFn k) = some (publishPhase s k).2 ∧
    load (publishPhase s k).1 k = ((publishPhase s k).1, (publishPhase s k).2) ∧
    (load (publishPhase s k).1 k).1.loadCalls = s.loadCalls := by
  have hpub : lookupCache (publishPhase s k).1.cache (s.cacheKeyFn k) = some (publishPhase s k).2 :=
    lookupCache_insertCache_self s.cache (s.cacheKeyFn k) s.nextId
  have hre : load (publishPhase s k).1 k = ((publishPhase s k).1, (publishPhase s k).2) :=
    load_hit _ k _ hpub
  refine ⟨?_, ?_, hpub, hre, by rw [hre]; rfl⟩
  · cases hfn : s.loadFn k with
    | syncResolved v =>
        rw [load_miss_syncResolved s k v hmiss hfn]
        exact ⟨[Event.resolveDelivered s.nextId v], by simp⟩
    | syncRejected e =>
        rw [load_miss_syncRejected s k e hmiss hfn]
        exact ⟨[Event.evicted (s.cacheKeyFn k), Event.rejectDelivered s.nextId e], by simp⟩
    | pendingFuture tok =>
        rw [load_miss_pendingFuture s k tok hmiss hfn]
        exact ⟨[], by simp⟩
  · cases hfn : s.loadFn k with
    | syncResolved v => rw [load_miss_syncResolved s k v hmiss hfn]; rfl
    | syncRejected e => rw [load_miss_syncRejected s k e hmiss hfn]; rfl
    | pendingFuture tok => rw [load_miss_pendingFuture s k tok hmiss hfn]; rfl

/-- Witness for C2 at a concrete loader and key. -/
theorem C2_witness :
    (lookupCache natResolvedLoader.cache (natResolvedLoader.cacheKeyFn 3) = none) ∧
    ((∃ rest, (load natResolvedLoader 3).1.trace =
        natResolvedLoader.trace ++
          [Event.published (natResolvedLoader.cacheKeyFn 3) (load natResolvedLoader 3).2,
            Event.invokedLoadFn 3] ++ rest) ∧
      (load natResolvedLoader 3).2 = (publishPhase natResolvedLoader 3).2 ∧
      lookupCache (publishPhase natResolvedLoader 3).1.cache (natResolvedLoader.cacheKeyFn 3) =
        some (publishPhase natResolvedLoader 3).2 ∧
      load (publishPhase natResolvedLoader 3).1 3 =
        ((publishPhase natResolvedLoader 3).1, (publishPhase natResolvedLoader 3).2) ∧
      (load (publishPhase natResolvedLoader 3).1 3).1.loadCalls = natResolvedLoader.loadCalls) :=
  ⟨rfl, C2_publish_before_invoke natResolvedLoader 3 rfl⟩

/-- Concrete loader state with one cached entry: the result of loading
key 5 on the pending loader (cache entry (5, 0), next id 1). -/
def seededLoader : LoaderState Nat Nat Nat Nat := (load natPendingLoader 5).1

/-- Concrete loader with a custom cache-key function mapping inputs to
their parity, so distinct inputs can share a derived cache key. -/
def parityLoader : LoaderState Nat Nat Nat Nat :=
  initLoader (fun k => AsyncResult.syncResolved k) (fun x => x % 2) 0

/-- C7: inputs whose derived cache keys differ get distinct promises and
one load-function invocation each; two distinct inputs mapping to the
same derived cache key share one cache entry, the load function is
invoked only once, and both calls return the identical promise. -/
theorem C7_cache_key_fn_discrimination :
    (∀ (s : LoaderState K CK V E) (k1 k2 : K),
        lookupCache s.cache (s.cacheKeyFn k1) = none →
        lookupCache s.cache (s.cacheKeyFn k2) = none →
        s.cacheKeyFn k1 ≠ s.cacheKeyFn k2 →
        (load (load s k1).1 k2).2 ≠ (load s k1).2 ∧
        (load (load s k1).1 k2).1.loadCalls = s.loadCalls ++ [k1, k2]) ∧
    (∀ (s : LoaderState K CK V E) (k1 k2 : K),
        k1 ≠ k2 →
        s.cacheKeyFn k1 = s.cacheKeyFn k2 →
        lookupCache s.cache (s.cacheKeyFn k1) = none →
        (s.loadFn k1).isSyncRejected = false →
        load (load s k1).1 k2 = ((load s k1).1, (load s k1).2) ∧
        (load s k1).1.loadCalls = s.loadCalls ++ [k1]) := by
  constructor
  · intro s k1 k2 hm1 hm2 hne
    obtain ⟨ga, gb, gc, gd, _, _, gg⟩ := load_miss_generic s k1 hm1
    have hm2' : lookupCache (load s k1).1.cache ((load s k1).1.cacheKeyFn k2) = none := by
      rw [gd, gg (s.cacheKeyFn k2) (fun hh => hne hh.symm)]
      exact hm2
    obtain ⟨ha, hb, _, _, _, _, _⟩ := load_miss_generic (load s k1).1 k2 hm2'
    constructor
    · rw [ha, gc, ga]
      exact Nat.succ_ne_self s.nextId
    · rw [hb, gb]
      simp
  · intro s k1 k2 hk hsame hm1 hnr
    cases hfn : s.loadFn k1 with
    | syncResolved v =>
        rw [load_miss_syncResolved s k1 v hm1 hfn]
        refine ⟨load_hit _ k2 _ ?_, rfl⟩
        show lookupCache (insertCache s.cache (s.cacheKeyFn k1) s.nextId) (s.cacheKeyFn k2) =
          some s.nextId
        rw [← hsame]
        exact lookupCache_insertCache_self s.cache (s.cacheKeyFn k1) s.nextId
    | syncRejected e =>
        rw [hfn] at hnr
        simp [AsyncResult.isSyncRejected] at hnr
    | pendingFuture tok =>
        rw [load_miss_pendingFuture s k1 tok hm1 hfn]
        refine ⟨load_hit _ k2 _ ?_, rfl⟩
        show lookupCache (insertCache s.cache (s.cacheKeyFn k1) s.nextId) (s.cacheKeyFn k2) =
          some s.nextId
        rw [← hsame]
        exact lookupCache_insertCache_self s.cache (s.cacheKeyFn k1) s.nextId

/-- Witness for C7: distinct derived keys at a concrete loader, and two
distinct inputs with the same parity-derived key at another. -/
theorem C7_witness :
    ((lookupCache natResolvedLoader.cache (natResolvedLoader.cacheKeyFn 1) = none ∧
      lookupCache natResolvedLoader.cache (natResolvedLoader.cacheKeyFn 2) = none ∧
      natResolvedLoader.cacheKeyFn 1 ≠ natResolvedLoader.cacheKeyFn 2) ∧
      ((load (load natResolvedLoader 1).1 2).2 ≠ (load natResolvedLoader 1).2 ∧
        (load (load natResolvedLoader 1).1 2).1.loadCalls =
          natResolvedLoader.loadCalls ++ [1, 2])) ∧
    (((1 : Nat) ≠ 3 ∧ parityLoader.cacheKeyFn 1 = parityLoader.cacheKeyFn 3 ∧
      lookupCache parityLoader.cache (parityLoader.cacheKeyFn 1) = none ∧
      (parityLoader.loadFn 1).isSyncRejected = false) ∧
      (load (load parityLoader 1).1 3 = ((load parityLoader 1).1, (load parityLoader 1).2) ∧
        (load parityLoader 1).1.loadCalls = parityLoader.loadCalls ++ [1])) :=
  ⟨⟨⟨rfl, rfl, by decide⟩,
      C7_cache_key_fn_discrimination.1 natResolvedLoader 1 2 rfl rfl (by decide)⟩,
    ⟨⟨by decide, rfl, rfl, rfl⟩,
      C7_cache_key_fn_discrimination.2 parityLoader 1 3 (by decide) rfl rfl rfl⟩⟩

/-- C8: when the derived cache key of a key is present, `clear` removes
exactly that one entry, leaves every entry for a different cache key
unchanged, returns the same loader instance with the promise store
untouched (the previously returned promise is unaffected), and a
subsequent `load` invokes the load function again and returns a new,
different promise. -/
theorem C8_clear_removes_exactly_one (s : LoaderState K CK V E) (k : K) (pid0 : Nat)
    (hhit : lookupCache s.cache (s.cacheKeyFn k) = some pid0)
    (hfresh : pid0 < s.nextId) :
    ∃ s', clear s k = Except.ok s' ∧
      s'.instanceId = s.instanceId ∧
      s'.promises = s.promises ∧
      lookupCache s'.cache (s.cacheKeyFn k) = none ∧
      (∀ ck', ck' ≠ s.cacheKeyFn k → lookupCache s'.cache ck' = lookupCache s.cache ck') ∧
      (load s' k).1.loadCalls = s.loadCalls ++ [k] ∧
      (load s' k).2 ≠ pid0 := by
  have hm : lookupCache (removeCache s.cache (s.cacheKeyFn k)) (s.cacheKeyFn k) = none :=
    lookupCache_removeCache_self s.cache (s.cacheKeyFn k)
  obtain ⟨ga, gb, _, _, _, _, _⟩ :=
    load_miss_generic
      { s with
          cache := removeCache s.cache (s.cacheKeyFn k),
          trace := s.trace ++ [Event.evicted (s.cacheKeyFn k)] } k hm
  refine ⟨{ s with
              cache := removeCache s.cache (s.cacheKeyFn k),
              trace := s.trace ++ [Event.evicted (s.cacheKeyFn k)] },
    ?_, rfl, rfl, hm, ?_, ?_, ?_⟩
  · simp [clear, hhit]
  · intro ck' h
    exact lookupCache_removeCache_other s.cache (s.cacheKeyFn k) ck' h
  · rw [gb]
  · rw [ga]
    exact hfresh.ne'

/-- Witness for C8 at a concrete loader state with one cached entry. -/
theorem C8_witness :
    (lookupCache seededLoader.cache (seededLoader.cacheKeyFn 5) = some 0 ∧
      0 < seededLoader.nextId) ∧
    (∃ s', clear seededLoader 5 = Except.ok s' ∧
      s'.instanceId = seededLoader.instanceId ∧
      s'.promises = seededLoader.promises ∧
      lookupCache s'.cache (seededLoader.cacheKeyFn 5) = none ∧
      (∀ ck', ck' ≠ seededLoader.cacheKeyFn 5 →
        lookupCache s'.cache ck' = lookupCache seededLoader.cache ck') ∧
      (load s' 5).1.loadCalls = seededLoader.loadCalls ++ [5] ∧
      (load s' 5).2 ≠ 0) :=
  ⟨⟨rfl, by decide⟩, C8_clear_removes_exactly_one seededLoader 5 0 rfl (by decide)⟩

/-- C5 counterexample: on a loader constructed with a caller-supplied
custom mapping, `clear_all` does not install a fresh mapping of the same
kind as the one it replaces: the assignment creates a built-in dict
while the replaced mapping was the custom one. -/
theorem C5_counterexample :
    (clear_all customMapLoader).cacheKind ≠ customMapLoader.cacheKind := by
  decide

/-- C5 amended: `clear_all` replaces the cache with a fresh, empty
mapping of the built-in dict kind, regardless of the kind of the mapping
it replaces (only for a loader using the default mapping is the kind the
same), returns the same loader instance with the promise store
untouched, and afterwards a load for any previously cached key
re-invokes the load function and returns a new promise different from
the one that was cached. -/
theorem C5_amended_clear_all_fresh_default (s : LoaderState K CK V E) (k : K) (pid0 : Nat)
    (hhit : lookupCache s.cache (s.cacheKeyFn k) = some pid0)
    (hfresh : pid0 < s.nextId) :
    (clear_all s).cache = [] ∧
    (clear_all s).cacheKind = MapKind.defaultDict ∧
    (clear_all s).instanceId = s.instanceId ∧
    (clear_all s).promises = s.promises ∧
    (load (clear_all s) k).1.loadCalls = s.loadCalls ++ [k] ∧
    (load (clear_all s) k).2 ≠ pid0 := by
  have hm : lookupCache (clear_all s).cache ((clear_all s).cacheKeyFn k) = none := rfl
  obtain ⟨ga, gb, _, _, _, _, _⟩ := load_miss_generic (clear_all s) k hm
  refine ⟨rfl, rfl, rfl, rfl, ?_, ?_⟩
  · rw [gb]
    rfl
  · rw [ga]
    exact hfresh.ne'

/-- Witness for the amended C5 at a concrete loader state with one
cached entry. -/
theorem C5_witness :
    (lookupCache seededLoader.cache (seededLoader.cacheKeyFn 5) = some 0 ∧
      0 < seededLoader.nextId) ∧
    ((clear_all seededLoader).cache = [] ∧
      (clear_all seededLoader).cacheKind = MapKind.defaultDict ∧
      (clear_all seededLoader).instanceId = seededLoader.instanceId ∧
      (clear_all seededLoader).promises = seededLoader.promises ∧
      (load (clear_all seededLoader) 5).1.loadCalls = seededLoader.loadCalls ++ [5] ∧
      (load (clear_all seededLoader) 5).2 ≠ 0) :=
  ⟨⟨rfl, by decide⟩, C5_amended_clear_all_fresh_default seededLoader 5 0 rfl (by decide)⟩

/-- C6: `prime` stores the supplied promise under the derived cache key
exactly when that key is absent, never invokes the load function, never
overwrites an existing entry (after priming an already-cached key,
`load` still returns the original promise, not the primed one), returns
the same loader instance, and when the key was absent a subsequent
`load` returns exactly the primed promise without invoking the load
function. -/
theorem C6_prime_stores_iff_absent :
    (∀ (s : LoaderState K CK V E) (k : K) (p : PrimeArg),
        p.hasThen = true →
        lookupCache s.cache (s.cacheKeyFn k) = none →
        prime s k p =
          Except.ok { s with cache := insertCache s.cache (s.cacheKeyFn k) p.pid } ∧
        lookupCache (insertCache s.cache (s.cacheKeyFn k) p.pid) (s.cacheKeyFn k) = some p.pid ∧
        ({ s with cache := insertCache s.cache (s.cacheKeyFn k) p.pid} : LoaderState K CK V E).instanceId = s.instanceId ∧
        ({ s with cache := insertCache s.cache (s.cacheKeyFn k) p.pid} : LoaderState K CK V E).loadCalls = s.loadCalls ∧
        load { s with cache := insertCache s.cache (s.cacheKeyFn k) p.pid } k =
          ({ s with cache := insertCache s.cache (s.cacheKeyFn k) p.pid }, p.pid)) ∧
    (∀ (s : LoaderState K CK V E) (k : K) (p : PrimeArg) (pid0 : Nat),
        p.hasThen = true →
        lookupCache s.cache (s.cacheKeyFn k) = some pid0 →
        prime s k p = Except.ok s ∧ load s k = (s, pid0)) := by
  constructor
  · intro s k p hthen hm
    refine ⟨?_, lookupCache_insertCache_self s.cache (s.cacheKeyFn k) p.pid, rfl, rfl, ?_⟩
    · simp [prime, hthen, hm]
    · exact load_hit _ k _ (lookupCache_insertCache_self s.cache (s.cacheKeyFn k) p.pid)
  · intro s k p pid0 hthen hm
    exact ⟨by simp [prime, hthen, hm], load_hit s k pid0 hm⟩

/-- Witness for C6: priming an absent key on one concrete loader and an
already-cached key on another. -/
theorem C6_witness :
    ((PrimeArg.mk 9 true).hasThen = true ∧
      lookupCache natResolvedLoader.cache (natResolvedLoader.cacheKeyFn 2) = none ∧
      (prime natResolvedLoader 2 (PrimeArg.mk 9 true) =
          Except.ok { natResolvedLoader with
            cache := insertCache natResolvedLoader.cache (natResolvedLoader.cacheKeyFn 2) 9 } ∧
        lookupCache (insertCache natResolvedLoader.cache (natResolvedLoader.cacheKeyFn 2) 9)
          (natResolvedLoader.cacheKeyFn 2) = some 9 ∧
        ({ natResolvedLoader with
            cache := insertCache natResolvedLoader.cache (natResolvedLoader.cacheKeyFn 2) 9 } : LoaderState Nat Nat Nat Nat).instanceId = natResolvedLoader.instanceId ∧
        ({ natResolvedLoader with
            cache := insertCache natResolvedLoader.cache (natResolvedLoader.cacheKeyFn 2) 9 } : LoaderState Nat Nat Nat Nat).loadCalls = natResolvedLoader.loadCalls ∧
        load { natResolvedLoader with
            cache := insertCache natResolvedLoader.cache (natResolvedLoader.cacheKeyFn 2) 9 } 2 =
          ({ natResolvedLoader with
            cache := insertCache natResolvedLoader.cache (natResolvedLoader.cacheKeyFn 2) 9 }, 9))) ∧
    (lookupCache seededLoader.cache (seededLoader.cacheKeyFn 5) = some 0 ∧
      (prime seededLoader 5 (PrimeArg.mk 9 true) = Except.ok seededLoader ∧
        load seededLoader 5 = (seededLoader, 0))) :=
  ⟨⟨rfl, rfl,
      C6_prime_stores_iff_absent.1 natResolvedLoader 2 (PrimeArg.mk 9 true) rfl rfl⟩,
    ⟨rfl, C6_prime_stores_iff_absent.2 seededLoader 5 (PrimeArg.mk 9 true) 0 rfl rfl⟩⟩

/-- C9: priming with an object that lacks a callable then attribute
fails fast with the assertion error before any cache mutation: the
raised error carries the loader state exactly unchanged, whether or not
the key is cached. -/
theorem C9_prime_requires_thenable (s : LoaderState K CK V E) (k : K) (p : PrimeArg)
    (h : p.hasThen = false) : prime s k p = Except.error s := by
  simp [prime, h]

/-- Witness for C9 at a concrete loader, key, and non-thenable object,
with the key both absent and present in the cache. -/
theorem C9_witness :
    (PrimeArg.mk 4 false).hasThen = false ∧
    prime natResolvedLoader 1 (PrimeArg.mk 4 false) = Except.error natResolvedLoader ∧
    prime seededLoader 5 (PrimeArg.mk 4 false) = Except.error seededLoader :=
  ⟨rfl, C9_prime_requires_thenable natResolvedLoader 1 (PrimeArg.mk 4 false) rfl,
    C9_prime_requires_thenable seededLoader 5 (PrimeArg.mk 4 false) rfl⟩

/-- Field-level characterization of a cache miss whose load function
returns a still-pending future. -/
theorem load_miss_pending_fields (s : LoaderState K CK V E) (k : K) (tok : Nat)
    (hmiss : lookupCache s.cache (s.cacheKeyFn k) = none)
    (hfn : s.loadFn k = AsyncResult.pendingFuture tok) :
    (load s k).1.cache = insertCache s.cache (s.cacheKeyFn k) s.nextId ∧
    (load s k).1.promises = s.promises ++ [(s.nextId, PromiseState.pending)] ∧
    (load s k).1.inflight = s.inflight ++ [(tok, k, s.nextId)] ∧
    (load s k).1.trace =
      s.trace ++ [Event.published (s.cacheKeyFn k) s.nextId, Event.invokedLoadFn k] ∧
    (load s k).1.loadCalls = s.loadCalls ++ [k] ∧
    (load s k).1.nextId = s.nextId + 1 ∧
    (load s k).1.cacheKeyFn = s.cacheKeyFn ∧
    (load s k).2 = s.nextId := by
  rw [load_miss_pendingFuture s k tok hmiss hfn]
  exact ⟨rfl, rfl, rfl, rfl, rfl, rfl, rfl, rfl⟩

/-- Record characterization of `clear` on a present key. -/
theorem clear_present_eq (s : LoaderState K CK V E) (k : K) (pid0 : Nat)
    (h : lookupCache s.cache (s.cacheKeyFn k) = some pid0) :
    clear s k = Except.ok
      { s with cache := removeCache s.cache (s.cacheKeyFn k),
               trace := s.trace ++ [Event.evicted (s.cacheKeyFn k)] } := by
  simp [clear, h]

/-- Record characterization of `prime` with a thenable argument on an
absent key. -/
theorem prime_absent_eq (s : LoaderState K CK V E) (k : K) (p : PrimeArg)
    (hthen : p.hasThen = true) (h : lookupCache s.cache (s.cacheKeyFn k) = none) :
    prime s k p = Except.ok { s with cache := insertCache s.cache (s.cacheKeyFn k) p.pid } := by
  simp [prime, hthen, h]

/-- Field-level characterization of a failing settlement whose captured
cache key is present in the cache at settlement time: the entry is
evicted and then the published promise is rejected with the error. -/
theorem settleFailure_found_present_fields (s : LoaderState K CK V E) (tok : Nat) (k : K)
    (pid pid' : Nat) (e : E)
    (hinf : lookupInflight s.inflight tok = some (k, pid))
    (hp : lookupCache s.cache (s.cacheKeyFn k) = some pid') :
    (settleFailure s tok e).cache = removeCache s.cache (s.cacheKeyFn k) ∧
    (settleFailure s tok e).promises = setPromise s.promises pid (PromiseState.rejected e) ∧
    (settleFailure s tok e).trace =
      s.trace ++ [Event.evicted (s.cacheKeyFn k), Event.rejectDelivered pid e] ∧
    (settleFailure s tok e).loadCalls = s.loadCalls ∧
    (settleFailure s tok e).nextId = s.nextId ∧
    (settleFailure s tok e).cacheKeyFn = s.cacheKeyFn ∧
    (settleFailure s tok e).loadFn = s.loadFn ∧
    (settleFailure s tok e).instanceId = s.instanceId := by
  simp [settleFailure, hinf, failedDispatch, clear, hp, List.append_assoc]

/-- Field-level characterization of a failing settlement whose captured
cache key is absent at settlement time: `clear` raises KeyError inside
the dispatch, the reject is never called, and promises and cache are
left unchanged. -/
theorem settleFailure_found_absent_fields (s : LoaderState K CK V E) (tok : Nat) (k : K)
    (pid : Nat) (e : E)
    (hinf : lookupInflight s.inflight tok = some (k, pid))
    (hp : lookupCache s.cache (s.cacheKeyFn k) = none) :
    (settleFailure s tok e).promises = s.promises ∧
    (settleFailure s tok e).cache = s.cache ∧
    (settleFailure s tok e).trace = s.trace ++ [Event.dispatchKeyError (s.cacheKeyFn k)] := by
  simp [settleFailure, hinf, failedDispatch, clear, hp]

/-- Rejecting the freshly appended pending promise and looking it up. -/
theorem lookupPromise_setPromise_append (ps : List (Nat × PromiseState V E)) (pid : Nat)
    (st0 st : PromiseState V E) (h : lookupPromise ps pid = none) :
    lookupPromise (setPromise (ps ++ [(pid, st0)]) pid st) pid = some st := by
  rw [setPromise_append_of_none st0 st h, lookupPromise_append_of_none h]
  simp [lookupPromise]

/-- C3: when the pending future of a freshly published load settles with
failure, the cache entry for the derived key is removed strictly before
the rejection is delivered (the trace gains the evict event and then the
reject event), the published promise rejects with the original error,
and a subsequent `load` of the key is a cache miss: it re-invokes the
load function and returns a new, different promise. -/
theorem C3_failure_evicts_then_rejects (s : LoaderState K CK V E) (k : K) (tok : Nat) (e : E)
    (hmiss : lookupCache s.cache (s.cacheKeyFn k) = none)
    (hfn : s.loadFn k = AsyncResult.pendingFuture tok)
    (htok : lookupInflight s.inflight tok = none)
    (hpid : lookupPromise s.promises s.nextId = none) :
    (settleFailure (load s k).1 tok e).trace =
      (load s k).1.trace ++
        [Event.evicted (s.cacheKeyFn k), Event.rejectDelivered (load s k).2 e] ∧
    lookupPromise (settleFailure (load s k).1 tok e).promises (load s k).2 =
      some (PromiseState.rejected e) ∧
    lookupCache (settleFailure (load s k).1 tok e).cache (s.cacheKeyFn k) = none ∧
    (load (settleFailure (load s k).1 tok e) k).2 ≠ (load s k).2 ∧
    (load (settleFailure (load s k).1 tok e) k).1.loadCalls =
      (settleFailure (load s k).1 tok e).loadCalls ++ [k] ∧
    (settleFailure (load s k).1 tok e).loadCalls = s.loadCalls ++ [k] := by
  obtain ⟨f1, f2, f3, f4, f5, f6, f7, f8⟩ := load_miss_pending_fields s k tok hmiss hfn
  have hinf1 : lookupInflight (load s k).1.inflight tok = some (k, s.nextId) := by
    rw [f3]
    exact lookupInflight_append_of_none k s.nextId htok
  have hp1 : lookupCache (load s k).1.cache ((load s k).1.cacheKeyFn k) = some s.nextId := by
    rw [f7, f1]
    exact lookupCache_insertCache_self s.cache (s.cacheKeyFn k) s.nextId
  obtain ⟨g1, g2, g3, g4, g5, g6, _, _⟩ :=
    settleFailure_found_present_fields (load s k).1 tok k s.nextId s.nextId e hinf1 hp1
  have hm4 : lookupCache (settleFailure (load s k).1 tok e).cache
      ((settleFailure (load s k).1 tok e).cacheKeyFn k) = none := by
    rw [g1, g6, f7]
    exact lookupCache_removeCache_self (load s k).1.cache (s.cacheKeyFn k)
  obtain ⟨ga, gb, _, _, _, _, _⟩ := load_miss_generic (settleFailure (load s k).1 tok e) k hm4
  refine ⟨?_, ?_, ?_, ?_, ?_, ?_⟩
  · rw [g3, f7, f8]
  · rw [g2, f2, f8]
    exact lookupPromise_setPromise_append s.promises s.nextId PromiseState.pending
      (PromiseState.rejected e) hpid
  · rw [g1, f7]
    exact lookupCache_removeCache_self (load s k).1.cache (s.cacheKeyFn k)
  · rw [ga, g5, f6, f8]
    exact Nat.succ_ne_self s.nextId
  · exact gb
  · rw [g4, f5]

/-- Witness for C3 at a concrete loader, key, token, and error. -/
theorem C3_witness :
    (lookupCache natPendingLoader.cache (natPendingLoader.cacheKeyFn 0) = none ∧
      natPendingLoader.loadFn 0 = AsyncResult.pendingFuture 0 ∧
      lookupInflight natPendingLoader.inflight 0 = none ∧
      lookupPromise natPendingLoader.promises natPendingLoader.nextId = none) ∧
    ((settleFailure (load natPendingLoader 0).1 0 9).trace =
        (load natPendingLoader 0).1.trace ++
          [Event.evicted (natPendingLoader.cacheKeyFn 0),
            Event.rejectDelivered (load natPendingLoader 0).2 9] ∧
      lookupPromise (settleFailure (load natPendingLoader 0).1 0 9).promises
          (load natPendingLoader 0).2 = some (PromiseState.rejected 9) ∧
      lookupCache (settleFailure (load natPendingLoader 0).1 0 9).cache
        (natPendingLoader.cacheKeyFn 0) = none ∧
      (load (settleFailure (load natPendingLoader 0).1 0 9) 0).2 ≠
        (load natPendingLoader 0).2 ∧
      (load (settleFailure (load natPendingLoader 0).1 0 9) 0).1.loadCalls =
        (settleFailure (load natPendingLoader 0).1 0 9).loadCalls ++ [0] ∧
      (settleFailure (load natPendingLoader 0).1 0 9).loadCalls =
        natPendingLoader.loadCalls ++ [0]) :=
  ⟨⟨rfl, rfl, rfl, rfl⟩,
    C3_failure_evicts_then_rejects natPendingLoader 0 0 9 rfl rfl rfl rfl⟩

/-- Intermediate state of the C4 scenario: load key 0 on the pending
loader (publishing promise 0 and starting future 0), then clear key 0
while the future is still in flight. -/
def C4midState : LoaderState Nat Nat Nat Nat :=
  match clear (load natPendingLoader 0).1 0 with
  | Except.ok s => s
  | Except.error s => s

/-- C4 counterexample: in the scenario load(0), clear(0), failure
settlement of the in-flight future with error 9, the promise returned by
the load never rejects with the original error: the failure dispatch
raises KeyError on the already-removed cache entry before calling
reject, so the promise stays pending and the failure is suppressed. -/
theorem C4_counterexample :
    clear (load natPendingLoader 0).1 0 = Except.ok C4midState ∧
    lookupPromise (settleFailure C4midState 0 9).promises (load natPendingLoader 0).2 =
      some PromiseState.pending ∧
    lookupPromise (settleFailure C4midState 0 9).promises (load natPendingLoader 0).2 ≠
      some (PromiseState.rejected 9) := by
  refine ⟨rfl, rfl, ?_⟩
  decide

/-- C4 amended: when an in-flight load settles with failure, the
published promise rejects with the original, untransformed error
provided the derived cache key is present in the cache at settlement
time (whether it is still the original entry or one re-created by a
later load or prime); when the entry is absent — removed by clear or
clear_all and not re-created — the failure dispatch raises KeyError
before calling reject, the loader's promises and cache are left
unchanged, and the handle never rejects: the failure is suppressed. -/
theorem C4_amended_rejection_delivery (s : LoaderState K CK V E) (tok : Nat) (k : K)
    (pid : Nat) (e : E)
    (hinf : lookupInflight s.inflight tok = some (k, pid)) :
    ((∃ pid', lookupCache s.cache (s.cacheKeyFn k) = some pid') →
      ∀ q, lookupPromise s.promises pid = some q →
        lookupPromise (settleFailure s tok e).promises pid =
          some (PromiseState.rejected e)) ∧
    (lookupCache s.cache (s.cacheKeyFn k) = none →
      (settleFailure s tok e).promises = s.promises ∧
      (settleFailure s tok e).cache = s.cache) := by
  constructor
  · rintro ⟨pid', hp⟩ q hq
    obtain ⟨_, g2, _, _, _, _, _, _⟩ :=
      settleFailure_found_present_fields s tok k pid pid' e hinf hp
    rw [g2]
    exact lookupPromise_setPromise_self (PromiseState.rejected e) hq
  · intro hp
    obtain ⟨g1, g2, _⟩ := settleFailure_found_absent_fields s tok k pid e hinf hp
    exact ⟨g1, g2⟩

/-- Witness for the amended C4: settlement with the entry still present
on one concrete state, and settlement after the entry was cleared on
another. -/
theorem C4_witness :
    (lookupInflight (load natPendingLoader 0).1.inflight 0 = some (0, 0) ∧
      lookupCache (load natPendingLoader 0).1.cache ((load natPendingLoader 0).1.cacheKeyFn 0) =
        some 0 ∧
      lookupPromise (load natPendingLoader 0).1.promises 0 = some PromiseState.pending ∧
      lookupPromise (settleFailure (load natPendingLoader 0).1 0 9).promises 0 =
        some (PromiseState.rejected 9)) ∧
    (lookupInflight C4midState.inflight 0 = some (0, 0) ∧
      lookupCache C4midState.cache (C4midState.cacheKeyFn 0) = none ∧
      (settleFailure C4midState 0 9).promises = C4midState.promises ∧
      (settleFailure C4midState 0 9).cache = C4midState.cache) :=
  ⟨⟨rfl, rfl, rfl,
      (C4_amended_rejection_delivery (load natPendingLoader 0).1 0 0 0 9 rfl).1
        ⟨0, rfl⟩ PromiseState.pending rfl⟩,
    ⟨rfl, rfl,
      ((C4_amended_rejection_delivery C4midState 0 0 0 9 rfl).2 rfl).1,
      ((C4_amended_rejection_delivery C4midState 0 0 0 9 rfl).2 rfl).2⟩⟩

/-- C10: the eviction performed by the failure dispatch is keyed by the
derived cache key of the captured load key against the cache state at
settlement time, not tied to the promise that failed: if, between a
load's invocation and its failure settlement, the entry for that cache
key was cleared and re-created by a prime with a different promise, the
dispatch for the old failing promise deletes that newer, unrelated entry
from the cache while rejecting the old promise. -/
theorem C10_dispatch_deletes_newer_entry (s : LoaderState K CK V E) (k : K) (tok : Nat)
    (p : PrimeArg) (e : E)
    (hmiss : lookupCache s.cache (s.cacheKeyFn k) = none)
    (hfn : s.loadFn k = AsyncResult.pendingFuture tok)
    (htok : lookupInflight s.inflight tok = none)
    (hpid : lookupPromise s.promises s.nextId = none)
    (hthen : p.hasThen = true)
    (hne : p.pid ≠ s.nextId) :
    ∀ s2, clear (load s k).1 k = Except.ok s2 →
    ∀ s3, prime s2 k p = Except.ok s3 →
      lookupCache s3.cache (s.cacheKeyFn k) = some p.pid ∧
      p.pid ≠ (load s k).2 ∧
      lookupCache (settleFailure s3 tok e).cache (s.cacheKeyFn k) = none ∧
      lookupPromise (settleFailure s3 tok e).promises (load s k).2 =
        some (PromiseState.rejected e) := by
  obtain ⟨f1, f2, f3, f4, f5, f6, f7, f8⟩ := load_miss_pending_fields s k tok hmiss hfn
  intro s2 hs2 s3 hs3
  have hp1 : lookupCache (load s k).1.cache ((load s k).1.cacheKeyFn k) = some s.nextId := by
    rw [f7, f1]
    exact lookupCache_insertCache_self s.cache (s.cacheKeyFn k) s.nextId
  rw [clear_present_eq (load s k).1 k s.nextId hp1] at hs2
  have hs2eq := (Except.ok.inj hs2).symm
  have c2cache : s2.cache = removeCache (load s k).1.cache ((load s k).1.cacheKeyFn k) := by
    rw [hs2eq]
  have c2ckf : s2.cacheKeyFn = (load s k).1.cacheKeyFn := by rw [hs2eq]
  have c2inflight : s2.inflight = (load s k).1.inflight := by rw [hs2eq]
  have c2promises : s2.promises = (load s k).1.promises := by rw [hs2eq]
  have hm2 : lookupCache s2.cache (s2.cacheKeyFn k) = none := by
    rw [c2ckf, c2cache]
    exact lookupCache_removeCache_self (load s k).1.cache ((load s k).1.cacheKeyFn k)
  rw [prime_absent_eq s2 k p hthen hm2] at hs3
  have hs3eq := (Except.ok.inj hs3).symm
  have c3cache : s3.cache = insertCache s2.cache (s2.cacheKeyFn k) p.pid := by rw [hs3eq]
  have c3ckf : s3.cacheKeyFn = s2.cacheKeyFn := by rw [hs3eq]
  have c3inflight : s3.inflight = s2.inflight := by rw [hs3eq]
  have c3promises : s3.promises = s2.promises := by rw [hs3eq]
  have hinf3 : lookupInflight s3.inflight tok = some (k, s.nextId) := by
    rw [c3inflight, c2inflight, f3]
    exact lookupInflight_append_of_none k s.nextId htok
  have hp3 : lookupCache s3.cache (s3.cacheKeyFn k) = some p.pid := by
    rw [c3cache, c3ckf]
    exact lookupCache_insertCache_self s2.cache (s2.cacheKeyFn k) p.pid
  obtain ⟨g1, g2, _, _, _, _, _, _⟩ :=
    settleFailure_found_present_fields s3 tok k s.nextId p.pid e hinf3 hp3
  refine ⟨?_, ?_, ?_, ?_⟩
  · rw [c3cache, c2ckf, f7]
    exact lookupCache_insertCache_self s2.cache (s.cacheKeyFn k) p.pid
  · rw [f8]
    exact hne
  · rw [g1, c3ckf, c2ckf, f7]
    exact lookupCache_removeCache_self s3.cache (s.cacheKeyFn k)
  · rw [g2, c3promises, c2promises, f2, f8]
    exact lookupPromise_setPromise_append s.promises s.nextId PromiseState.pending
      (PromiseState.rejected e) hpid

/-- Primed state of the C10 scenario: after load(0) and clear(0), key 0
is re-created by priming it with the external promise 7. -/
def C10primedState : LoaderState Nat Nat Nat Nat :=
  match prime C4midState 0 (PrimeArg.mk 7 true) with
  | Except.ok s => s
  | Except.error s => s

/-- Witness for C10 at a concrete loader: load key 0, clear it, prime it
with promise 7, then let the old future settle with failure. -/
theorem C10_witness :
    (lookupCache natPendingLoader.cache (natPendingLoader.cacheKeyFn 0) = none ∧
      natPendingLoader.loadFn 0 = AsyncResult.pendingFuture 0 ∧
      lookupInflight natPendingLoader.inflight 0 = none ∧
      lookupPromise natPendingLoader.promises natPendingLoader.nextId = none ∧
      (PrimeArg.mk 7 true).hasThen = true ∧
      (PrimeArg.mk 7 true).pid ≠ natPendingLoader.nextId ∧
      clear (load natPendingLoader 0).1 0 = Except.ok C4midState ∧
      prime C4midState 0 (PrimeArg.mk 7 true) = Except.ok C10primedState) ∧
    (lookupCache C10primedState.cache (natPendingLoader.cacheKeyFn 0) = some 7 ∧
      (7 : Nat) ≠ (load natPendingLoader 0).2 ∧
      lookupCache (settleFailure C10primedState 0 9).cache (natPendingLoader.cacheKeyFn 0) =
        none ∧
      lookupPromise (settleFailure C10primedState 0 9).promises (load natPendingLoader 0).2 =
        some (PromiseState.rejected 9)) :=
  ⟨⟨rfl, rfl, rfl, rfl, rfl, by decide, rfl, rfl⟩,
    C10_dispatch_deletes_newer_entry natPendingLoader 0 0 (PrimeArg.mk 7 true) 9
      rfl rfl rfl rfl rfl (by decide) C4midState (by rfl) C10primedState (by rfl)⟩
